import Mathlib

/-!
Verification of the per-frame interaction-targeting engine of
`src/voxygen/src/session.rs`: the targeting resolver (`under_cursor`,
lines 1147-1245), the per-channel edge-triggered input guards, and the
action-dispatcher arms for the Primary, Mount and Interact inputs.

Numbers: the source computes in `f32`; the embedding uses exact rationals.
A square root never needs to be materialised: every comparison the source
makes against a square root is decided exactly on squares (`sqrt_sub_le`,
`sqrt_lt_rat` below, each proved correct against `Real.sqrt`), and the
distance the resolver returns alongside the target entity is carried as
its square (the source carries the square root of the same quantity).
-/

/- Core marks rational arithmetic irreducible, which blocks `decide` on the
concrete evaluations below; restore the default reducibility for this file. -/
attribute [local semireducible] Rat.add Rat.mul Rat.sub Rat.inv

/- Concrete frame evaluations below recurse deeply. -/
set_option maxRecDepth 100000

namespace Session

/-- 3D vector of rationals (models `vek::Vec3<f32>`). -/
structure Vec3 where
  x : ℚ
  y : ℚ
  z : ℚ
deriving DecidableEq

/-- 3D vector of integers (models `vek::Vec3<i32>`, a voxel coordinate). -/
structure IVec3 where
  x : ℤ
  y : ℤ
  z : ℤ
deriving DecidableEq

def vadd (a b : Vec3) : Vec3 := ⟨a.x + b.x, a.y + b.y, a.z + b.z⟩

def vsub (a b : Vec3) : Vec3 := ⟨a.x - b.x, a.y - b.y, a.z - b.z⟩

def vscale (k : ℚ) (a : Vec3) : Vec3 := ⟨k * a.x, k * a.y, k * a.z⟩

def dot (a b : Vec3) : ℚ := a.x * b.x + a.y * b.y + a.z * b.z

/-- `vek` `distance_squared`. -/
def distSq (a b : Vec3) : ℚ := dot (vsub a b) (vsub a b)

/-- Componentwise floor: the source's `.map(|e| e.floor() as i32)`. -/
def vfloor (a : Vec3) : IVec3 := ⟨Rat.floor a.x, Rat.floor a.y, Rat.floor a.z⟩

/-- A terrain block as the session code queries it: only the two
predicates the targeting code reads (`is_filled`, `is_collectible`). -/
structure Block where
  is_filled : Bool
  is_collectible : Bool
deriving DecidableEq

/-- Distance along one axis from `p` to the next voxel boundary in
direction `d`, divided by the speed `|d|`; `none` when the axis does not
advance (`d = 0`). -/
def axis_delta (p d : ℚ) : Option ℚ :=
  if 0 < d then some ((Rat.floor p + 1 - p) / d)
  else if d < 0 then some ((p - Rat.floor p) / (-d)) else none

/-- Parameter advance of one ray-march step from position `pos` along
`dir`: to the nearest voxel boundary, and by at least a planck of 1/1000
so that the march always progresses. -/
def step_delta (pos dir : Vec3) : ℚ :=
  let ds := List.filterMap id
    [axis_delta pos.x dir.x, axis_delta pos.y dir.y, axis_delta pos.z dir.z]
  max (1 / 1000) (ds.min?.getD 1)

/-- Modelled from the spec: the World Query Facade ray cast
`cast_ray(origin, direction, max_distance, stop_predicate)`, whose
implementation lives in the common crate of this repository and is not
under `src/`. Starting at `origin` it marches the voxel grid along `dir`
(each iteration advancing to the next cell boundary, by at least a small
planck), stops at the first voxel satisfying `pred` and returns the
distance travelled together with that voxel; when no voxel within
`maxDist` satisfies the predicate it returns `(maxDist, none)` — the
distance travelled. `fuel` bounds the number of iterations and is chosen
far larger than any march of length `maxDist` can need. -/
def ray_cast_aux (terrain : IVec3 → Block) (pred : Block → Bool) (origin dir : Vec3)
    (maxDist : ℚ) : ℕ → ℚ → ℚ × Option Block
  | 0, _ => (maxDist, none)
  | fuel + 1, dist =>
    if dist < maxDist then
      let pos := vadd origin (vscale dist dir)
      let b := terrain (vfloor pos)
      if pred b then (dist, some b)
      else ray_cast_aux terrain pred origin dir maxDist fuel (dist + step_delta pos dir)
    else (maxDist, none)

/-- Modelled from the spec: the facade ray cast at full fuel. -/
def ray_cast (terrain : IVec3 → Block) (pred : Block → Bool) (origin dir : Vec3)
    (maxDist : ℚ) : ℚ × Option Block :=
  ray_cast_aux terrain pred origin dir maxDist 400000 0

/-- Exact decision of `Real.sqrt a - r1 ≤ Real.sqrt b - r2` on rationals
(the source compares `d_sqr.sqrt() - r` keys in `f32`; here the radicands
are carried and the comparison is decided on squares). The `max _ 0`
clamps are inert on the nonnegative radicands the resolver produces; they
make the comparator agree with `Real.sqrt` (which maps negatives to 0) on
all inputs, so that it is a total preorder. Proved correct in
`sqrt_sub_le_iff` below. -/
def sqrt_sub_le (a r1 b r2 : ℚ) : Bool :=
  let a1 := max a 0
  let b1 := max b 0
  let c := r1 - r2
  if c < 0 then
    decide (0 ≤ b1 - a1 - c * c) &&
      decide (4 * (c * c) * a1 ≤ (b1 - a1 - c * c) * (b1 - a1 - c * c))
  else
    decide (a1 - b1 - c * c ≤ 0) ||
      decide ((a1 - b1 - c * c) * (a1 - b1 - c * c) ≤ 4 * (c * c) * b1)

/-- Exact decision of `Real.sqrt d < c` on rationals (the source's
`dist_to_player - r < MAX_TARGET_RANGE` is `sqrt d < MAX_TARGET_RANGE + r`).
Proved correct in `sqrt_lt_rat_iff` below. -/
def sqrt_lt_rat (d c : ℚ) : Bool :=
  decide (0 < c) && decide (max d 0 < c * c)

/-- An entity as the resolver reads it from the ECS: identifier, feet
position (`comp::Pos`), optional scale (`comp::Scale`) and body radius
(`comp::Body::radius()`). -/
structure Entity where
  id : ℕ
  pos : Vec3
  scale : Option ℚ
  body_radius : ℚ
deriving DecidableEq

/-- The world snapshot `under_cursor` queries through the client: terrain,
the joinable entities, the player entity and its `comp::Pos`, and the
imported constant `MAX_PICKUP_RANGE_SQR` (defined in the common crate,
which is not under `src/`), carried as a field so every theorem
quantifies over its value unless the claim pins one. -/
structure Snapshot where
  terrain : IVec3 → Block
  entities : List Entity
  player_entity : ℕ
  player_pos : Option Vec3
  max_pickup_range_sqr : ℚ

/-- One pre-processed entity candidate, the tuple
`(entity, position, radius, dist_sqr)` built in lines 1210-1218:
identifier, position raised from the feet by the radius, effective
radius, and squared distance from the raised position to the camera.
`dist_sqr` stays squared; the source's later map to `d_sqr.sqrt() - r` is
realised by the exact comparator `key_le` below. -/
structure Cand where
  id : ℕ
  pos : Vec3
  radius : ℚ
  dist_sqr : ℚ
deriving DecidableEq

/-- Line 1144: max distance an entity can be targeted. -/
def MAX_TARGET_RANGE : ℚ := 300

/-- Line 1211. -/
def RADIUS_SCALE : ℚ := 3

/-- Lines 1210-1218: effective radius `scale.map_or(1.0) * body.radius() *
RADIUS_SCALE`, position moved up from the feet by the radius, and the
squared distance from there to the camera. -/
def mk_cand (camPos : Vec3) (e : Entity) : Cand :=
  let radius := (e.scale.getD 1) * e.body_radius * RADIUS_SCALE
  let pos : Vec3 := ⟨e.pos.x, e.pos.y, e.pos.z + radius⟩
  ⟨e.id, pos, radius, distSq pos camPos⟩

/-- Lines 1202-1225: all entities but the player, mapped to candidates,
coarsely filtered to `d_sqr <= cast_dist^2 + 2*cast_dist*r + r^2`, and
stripped of candidates whose sphere contains the camera (`d_sqr > r^2`). -/
def nearby_candidates (s : Snapshot) (camPos : Vec3) (castDist : ℚ) : List Cand :=
  (((s.entities.filter (fun e => e.id ≠ s.player_entity)).map (mk_cand camPos)).filter
      (fun c => c.dist_sqr ≤ castDist * castDist + 2 * castDist * c.radius + c.radius * c.radius)).filter
    (fun c => c.dist_sqr > c.radius * c.radius)

/-- The sort key order of line 1227: ascending `d_sqr.sqrt() - r`. -/
def key_le (a b : Cand) : Prop :=
  sqrt_sub_le a.dist_sqr a.radius b.dist_sqr b.radius = true

instance : DecidableRel key_le := fun a b =>
  Bool.decEq (sqrt_sub_le a.dist_sqr a.radius b.dist_sqr b.radius) true

/-- `vek::LineSegment3::projected_point` (external crate): the point of
the segment from `s` to `e` nearest to `v`. -/
def projected_point (s e v : Vec3) : Vec3 :=
  let lenSq := distSq s e
  if lenSq = 0 then s
  else
    let t := max 0 (min 1 (dot (vsub v s) (vsub e s) / lenSq))
    vadd s (vscale t (vsub e s))

/-- Line 1238: the candidate's sphere meets the camera-to-hit segment. -/
def seg_intersects (segStart segEnd : Vec3) (c : Cand) : Bool :=
  decide (distSq (projected_point segStart segEnd c.pos) c.pos < c.radius * c.radius)

/-- Lines 1156-1165: the reference point for range checks — the player's
`comp::Pos` raised by 2 world units, with the camera position as the
fallback when the component is missing. -/
def player_ref_pos (s : Snapshot) (camPos : Vec3) : Vec3 :=
  match s.player_pos with
  | some p => vadd p ⟨0, 0, 2⟩
  | none => camPos

/-- Line 1170: the ray stops at the first filled or collectible block. -/
def until_pred (b : Block) : Bool := b.is_filled || b.is_collectible

/-- Lines 1168-1171: the terrain ray from the camera, 100 units long. -/
def cam_ray (s : Snapshot) (camPos camDir : Vec3) : ℚ × Option Block :=
  ray_cast s.terrain until_pred camPos camDir 100

/-- Lines 1193-1197: `cast_dist` caps the coarse candidate filter:
the hit distance (capped by `MAX_TARGET_RANGE`) on a hit, else
`MAX_TARGET_RANGE`. -/
def cast_dist (s : Snapshot) (camPos camDir : Vec3) : ℚ :=
  if (cam_ray s camPos camDir).2.isSome then
    min (cam_ray s camPos camDir).1 MAX_TARGET_RANGE
  else MAX_TARGET_RANGE

/-- Lines 1229-1232: the intersection segment runs from the camera to
`cam_pos + cam_dir * cam_dist` — `cam_dist` being the ray's travel
distance, not `cast_dist`. -/
def seg_end (s : Snapshot) (camPos camDir : Vec3) : Vec3 :=
  vadd camPos (vscale (cam_ray s camPos camDir).1 camDir)

/-- Lines 1176-1186: build and select positions, present exactly when the
ray hit a block and the hit point is within `MAX_PICKUP_RANGE_SQR`
(squared distance) of the reference point; they floor the points 0.01
before and past the hit along the ray. -/
def build_select (s : Snapshot) (camPos camDir : Vec3) : Option IVec3 × Option IVec3 :=
  let cr := cam_ray s camPos camDir
  if cr.2.isSome ∧
      distSq (player_ref_pos s camPos) (vadd camPos (vscale cr.1 camDir)) ≤
        s.max_pickup_range_sqr then
    (some (vfloor (vadd camPos (vscale (cr.1 - 1 / 100) camDir))),
      some (vfloor (vadd camPos (vscale (cr.1 + 1 / 100) camDir))))
  else (none, none)

/-- Lines 1226-1242: sort the candidates by ascending `sqrt(d_sqr) - r`,
take the first whose sphere meets the camera segment, and keep it only
when `dist_to_player - r < MAX_TARGET_RANGE`; returns the entity with its
distance to the reference point (carried squared, see `Cand`). -/
def target_entity (s : Snapshot) (camPos camDir : Vec3) : Option (ℕ × ℚ) :=
  ((List.insertionSort key_le
        (nearby_candidates s camPos (cast_dist s camPos camDir))).find?
      (seg_intersects camPos (seg_end s camPos camDir))).bind
    (fun c =>
      let dps := distSq c.pos (player_ref_pos s camPos)
      if sqrt_lt_rat dps (MAX_TARGET_RANGE + c.radius) then some (c.id, dps) else none)

/-- `under_cursor`, lines 1147-1245: the per-frame targeting resolver.
Third component: the target entity with the squared distance from its
raised position to the player reference point (the source returns that
distance un-squared; see the header note). -/
def under_cursor (s : Snapshot) (camPos camDir : Vec3) :
    Option IVec3 × Option IVec3 × Option (ℕ × ℚ) :=
  ((build_select s camPos camDir).1, (build_select s camPos camDir).2,
    target_entity s camPos camDir)

/-- Lines 276-284: the tick keeps `select_pos` only when the block there
is collectible or the player can build (`scene.set_select_pos` filter).
The terrain is total here, so the source's `unwrap_or(false)` branch for
unloaded chunks cannot fire. -/
def scene_select_pos (terrain : IVec3 → Block) (canBuild : Bool)
    (selectPos : Option IVec3) : Option IVec3 :=
  match selectPos with
  | some sp => if (terrain sp).is_collectible || canBuild then some sp else none
  | none => none

/-- What the Primary arm does with one event: a `remove_block` call, a
`primary.set_state` forward, or nothing. -/
inductive PrimaryAction where
  | removeBlock (pos : IVec3)
  | setAttack (held : Bool)
  | noop
deriving DecidableEq

/-- Lines 297-307, the `GameInput::Primary` arm: with a pressed level and
build permission, remove the block at `select_pos` when one exists (and
otherwise do nothing at all); in every other case forward the raw level
as the continuous attack signal. -/
def handle_primary (canBuild : Bool) (selectPos : Option IVec3) (state : Bool) :
    PrimaryAction :=
  if state && canBuild then
    match selectPos with
    | some sp => PrimaryAction.removeBlock sp
    | none => PrimaryAction.noop
  else PrimaryAction.setAttack state

/-- `comp::MountState`, as far as the Mount arm inspects it. -/
inductive MountState where
  | unmounted
  | mountedBy (rider : ℕ)
deriving DecidableEq

/-- An entity as the Mount arm joins it: identifier, `comp::Pos`,
`comp::MountState`. -/
structure MountCand where
  id : ℕ
  pos : Vec3
  mount_state : MountState
deriving DecidableEq

/-- What the Mount arm emits. -/
inductive MountAction where
  | unmount
  | mount (e : ℕ)
  | noop
deriving DecidableEq

/-- `(x * 1000.0) as i32` in lines 474-475 and 528: scale by 1000 and
truncate toward zero (the saturation of the `as` cast is not modelled;
every input in this file is far inside the `i32` range). -/
def scaled_trunc (q : ℚ) : ℤ :=
  if q < 0 then -(Rat.floor (-(q * 1000))) else Rat.floor (q * 1000)

/-- The scaled integer distance both nearest-selection loops compare. -/
def scaled_dist_sq (a b : Vec3) : ℤ := scaled_trunc (distSq a b)

/-- One iteration of the closest-mountable loop, lines 462-487: skip the
player, skip mounted entities, skip entities whose scaled squared
distance exceeds the range constant, and keep the strictly nearest seen
so far (first seen wins ties). -/
def mount_step (pp : Vec3) (maxMountRangeSqr : ℤ) (playerId : ℕ)
    (acc : Option (ℕ × ℤ)) (c : MountCand) : Option (ℕ × ℤ) :=
  if c.id = playerId then acc
  else if c.mount_state ≠ MountState.unmounted then acc
  else
    let dist := scaled_dist_sq pp c.pos
    if dist > maxMountRangeSqr then acc
    else
      match acc with
      | some (pe, pd) => if dist < pd then some (c.id, dist) else some (pe, pd)
      | none => some (c.id, dist)

/-- Lines 460-487: the whole scan. -/
def closest_mountable (pp : Vec3) (maxMountRangeSqr : ℤ) (playerId : ℕ)
    (entities : List MountCand) : Option (ℕ × ℤ) :=
  entities.foldl (mount_step pp maxMountRangeSqr playerId) none

/-- Lines 448-494, the `GameInput::Mount, true` arm. `maxMountRangeSqr`
models the imported constant `MAX_MOUNT_RANGE_SQR` (common crate, not
under `src/`) and is a parameter; the spec names 500 as its value. -/
def handle_mount (isMounted : Bool) (playerPos : Option Vec3)
    (maxMountRangeSqr : ℤ) (playerId : ℕ) (entities : List MountCand) :
    MountAction :=
  if isMounted then MountAction.unmount
  else
    match playerPos with
    | none => MountAction.noop
    | some pp =>
      match closest_mountable pp maxMountRangeSqr playerId entities with
      | some (e, _) => MountAction.mount e
      | none => MountAction.noop

/-- A transition of one edge-tracked input channel. -/
inductive Edge where
  | rising
  | falling
deriving DecidableEq

/-- The per-channel guard-and-update pattern of the tick (for example
lines 355-364 for Sit and 407-414 for Glide): an incoming level equal to
the stored one is dropped by the match guard; a differing level is stored
and fires one transition. -/
def edge_step (prev level : Bool) : Option Edge × Bool :=
  if level ≠ prev then
    (some (if level then Edge.rising else Edge.falling), level)
  else (none, prev)

/-- The events a whole level sequence produces on one channel. -/
def edge_events (prev : Bool) : List Bool → List Edge
  | [] => []
  | l :: ls =>
    match edge_step prev l with
    | (some e, st) => e :: edge_events st ls
    | (none, st) => edge_events st ls

/-- An entity as the Interact fallback scan joins it: identifier,
`comp::Pos`, and whether it has a `comp::Item` (the join over the `Item`
storage is modelled by this flag). -/
structure ItemCand where
  id : ℕ
  pos : Vec3
  has_item : Bool
deriving DecidableEq

/-- Rust `Iterator::min_by_key` (first minimum wins ties). -/
def min_by_key (key : ItemCand → ℤ) (l : List ItemCand) : Option ItemCand :=
  l.foldl
    (fun acc c =>
      match acc with
      | none => some c
      | some b => if key c < key b then some c else some b)
    none

/-- Lines 508-536, the pickup-target half of the `GameInput::Interact`
rising-edge arm: nothing without a player position; otherwise the frame's
resolved target entity if any, and only failing that the nearest
item-bearing entity strictly within `MAX_PICKUP_RANGE_SQR` of the
player's raw position (nearest by the scaled-truncated squared
distance). -/
def interact_pickup (targetEntity : Option ℕ) (playerPos : Option Vec3)
    (maxPickupRangeSqr : ℚ) (entities : List ItemCand) : Option ℕ :=
  match playerPos with
  | none => none
  | some pp =>
    match targetEntity with
    | some e => some e
    | none =>
      (min_by_key (fun c => scaled_dist_sq c.pos pp)
          ((entities.filter (fun c => c.has_item)).filter
            (fun c => distSq c.pos pp < maxPickupRangeSqr))).map
        (fun c => c.id)


/-! ## Correctness of the exact square-root comparators -/


/-- Algebraic core of sqrt_sub_le: the comparison of sx and sy + c by squares. -/
theorem sqrt_aux_iff (sx sy c : ℝ) (hsx : 0 ≤ sx) (hsy : 0 ≤ sy) :
    sx ≤ sy + c ↔
      (if c < 0 then
        0 ≤ sy * sy - sx * sx - c * c ∧
          4 * (c * c) * (sx * sx) ≤ (sy * sy - sx * sx - c * c) * (sy * sy - sx * sx - c * c)
      else
        sx * sx - sy * sy - c * c ≤ 0 ∨
          (sx * sx - sy * sy - c * c) * (sx * sx - sy * sy - c * c) ≤ 4 * (c * c) * (sy * sy)) := by
  by_cases hc : c < 0
  · simp only [if_pos hc]
    constructor
    · intro h
      have h2 : 0 ≤ sx - c := by linarith
      have h1 : sx - c ≤ sy := by linarith
      have h3 : (sx - c) * (sx - c) ≤ sy * sy := mul_self_le_mul_self h2 h1
      have h0 : 0 ≤ 2 * (-c) * sx := by nlinarith
      have hK : 2 * (-c) * sx ≤ sy * sy - sx * sx - c * c := by nlinarith
      refine ⟨by linarith, ?_⟩
      nlinarith [mul_self_le_mul_self h0 hK]
    · rintro ⟨hK0, hKsq⟩
      have h0 : 0 ≤ 2 * (-c) * sx := by nlinarith
      have h4 : 2 * (-c) * sx ≤ sy * sy - sx * sx - c * c := by
        nlinarith [hKsq, h0, hK0]
      have h5 : (sx - c) * (sx - c) ≤ sy * sy := by nlinarith
      nlinarith [h5, hsy, mul_self_nonneg (sx - c - sy)]
  · simp only [if_neg hc]
    push_neg at hc
    constructor
    · intro h
      by_cases hL : sx * sx - sy * sy - c * c ≤ 0
      · exact Or.inl hL
      · right
        have h1 : sx * sx ≤ (sy + c) * (sy + c) := mul_self_le_mul_self hsx h
        have h2 : sx * sx - sy * sy - c * c ≤ 2 * c * sy := by nlinarith
        push_neg at hL
        have h3 : 0 ≤ 2 * c * sy := by nlinarith
        nlinarith [mul_self_le_mul_self (le_of_lt hL) h2]
    · intro h
      have hsyc : 0 ≤ sy + c := by linarith
      rcases h with hL | hsq
      · nlinarith [mul_self_nonneg (sx - sy - c), mul_self_nonneg (sx + sy + c)]
      · have h3 : 0 ≤ 2 * c * sy := by nlinarith
        have h4 : sx * sx - sy * sy - c * c ≤ 2 * c * sy := by
          nlinarith [hsq, h3]
        nlinarith [mul_self_nonneg (sx - sy - c), mul_self_nonneg (sx + sy + c)]


theorem cast_max_sqrt (a : ℚ) : Real.sqrt ((max a 0 : ℚ) : ℝ) = Real.sqrt (a : ℝ) := by
  rcases le_total a 0 with h | h
  · rw [max_eq_right h, Real.sqrt_eq_zero'.mpr (by exact_mod_cast h : (a:ℝ) ≤ 0)]
    norm_num
  · rw [max_eq_left h]

theorem sqrt_sub_le_iff (a r1 b r2 : ℚ) :
    sqrt_sub_le a r1 b r2 = true ↔
      Real.sqrt (a : ℝ) - r1 ≤ Real.sqrt (b : ℝ) - r2 := by
  rw [← cast_max_sqrt a, ← cast_max_sqrt b]
  have ha1 : (0:ℝ) ≤ ((max a 0 : ℚ) : ℝ) := by exact_mod_cast le_max_right a 0
  have hb1 : (0:ℝ) ≤ ((max b 0 : ℚ) : ℝ) := by exact_mod_cast le_max_right b 0
  have key := sqrt_aux_iff (Real.sqrt ((max a 0 : ℚ) : ℝ)) (Real.sqrt ((max b 0 : ℚ) : ℝ))
    ((r1:ℝ) - r2) (Real.sqrt_nonneg _) (Real.sqrt_nonneg _)
  rw [Real.mul_self_sqrt ha1, Real.mul_self_sqrt hb1] at key
  have hiff : (Real.sqrt ((max a 0 : ℚ) : ℝ) - r1 ≤ Real.sqrt ((max b 0 : ℚ) : ℝ) - r2) ↔
      Real.sqrt ((max a 0 : ℚ) : ℝ) ≤ Real.sqrt ((max b 0 : ℚ) : ℝ) + ((r1:ℝ) - r2) := by
    constructor <;> intro <;> linarith
  rw [hiff, key]
  simp only [sqrt_sub_le]
  by_cases hc : r1 - r2 < 0
  · rw [if_pos hc, if_pos (show (r1:ℝ) - r2 < 0 by exact_mod_cast hc)]
    simp only [Bool.and_eq_true, decide_eq_true_eq]
    constructor <;> rintro ⟨h1, h2⟩ <;> exact ⟨by exact_mod_cast h1, by exact_mod_cast h2⟩
  · rw [if_neg hc, if_neg (show ¬((r1:ℝ) - r2 < 0) by exact_mod_cast hc)]
    simp only [Bool.or_eq_true, decide_eq_true_eq]
    constructor <;> rintro (h1 | h2)
    · exact Or.inl (by exact_mod_cast h1)
    · exact Or.inr (by exact_mod_cast h2)
    · exact Or.inl (by exact_mod_cast h1)
    · exact Or.inr (by exact_mod_cast h2)

theorem sqrt_lt_rat_iff (d c : ℚ) :
    sqrt_lt_rat d c = true ↔ Real.sqrt (d : ℝ) < c := by
  rw [← cast_max_sqrt d]
  simp only [sqrt_lt_rat, Bool.and_eq_true, decide_eq_true_eq]
  constructor
  · rintro ⟨hc, hlt⟩
    rw [Real.sqrt_lt' (show (0:ℝ) < c by exact_mod_cast hc)]
    have : ((max d 0 : ℚ) : ℝ) < (c:ℝ) * c := by exact_mod_cast hlt
    nlinarith [this]
  · intro h
    have hc : (0:ℝ) < c := lt_of_le_of_lt (Real.sqrt_nonneg _) h
    have hd := (Real.sqrt_lt' hc).mp h
    refine ⟨by exact_mod_cast hc, ?_⟩
    have : ((max d 0 : ℚ) : ℝ) < (c:ℝ) * c := by nlinarith [hd]
    exact_mod_cast this

instance : IsRefl Cand key_le :=
  ⟨fun a => (sqrt_sub_le_iff a.dist_sqr a.radius a.dist_sqr a.radius).mpr le_rfl⟩

instance : IsTrans Cand key_le :=
  ⟨fun a b c hab hbc => by
    rw [key_le, sqrt_sub_le_iff] at hab hbc ⊢
    linarith⟩

instance : IsTotal Cand key_le :=
  ⟨fun a b => by
    rw [key_le, sqrt_sub_le_iff, key_le, sqrt_sub_le_iff]
    exact le_total _ _⟩


/-! ## List and march helper lemmas -/


/-- A `find?` hit on a `Pairwise r` list is `r`-below every hit of the list. -/
theorem find_first_min {α : Type} {r : α → α → Prop} [IsRefl α r] {p : α → Bool} :
    ∀ {l : List α} {x : α}, List.Pairwise r l → l.find? p = some x →
      ∀ y ∈ l, p y = true → r x y := by
  intro l
  induction l with
  | nil => intro x _ h; simp [List.find?] at h
  | cons a t ih =>
    intro x hp hf y hy hpy
    rcases List.pairwise_cons.mp hp with ⟨ha, ht⟩
    by_cases hpa : p a = true
    · rw [List.find?_cons_of_pos _ hpa] at hf
      cases hf
      rcases List.mem_cons.mp hy with rfl | hyt
      · exact refl_of r y
      · exact ha y hyt
    · rw [List.find?_cons_of_neg _ hpa] at hf
      rcases List.mem_cons.mp hy with rfl | hyt
      · exact absurd hpy hpa
      · exact ih ht hf y hyt hpy

/-- When the march finds nothing, the reported distance is `maxDist`. -/
theorem ray_cast_aux_none (terrain : IVec3 → Block) (pred : Block → Bool)
    (origin dir : Vec3) (maxDist : ℚ) :
    ∀ (fuel : ℕ) (dist : ℚ),
      (ray_cast_aux terrain pred origin dir maxDist fuel dist).2 = none →
      (ray_cast_aux terrain pred origin dir maxDist fuel dist).1 = maxDist := by
  intro fuel
  induction fuel with
  | zero => intro dist _; rfl
  | succ n ih =>
    intro dist h
    rw [ray_cast_aux] at h ⊢
    by_cases hlt : dist < maxDist
    · rw [if_pos hlt] at h ⊢
      by_cases hp : pred (terrain (vfloor (vadd origin (vscale dist dir)))) = true
      · simp only [hp, if_true] at h
        exact absurd h (by simp)
      · simp only [hp, Bool.false_eq_true, if_false] at h ⊢
        exact ih _ h
    · rw [if_neg hlt]

theorem ray_cast_none (terrain : IVec3 → Block) (pred : Block → Bool)
    (origin dir : Vec3) (maxDist : ℚ)
    (h : (ray_cast terrain pred origin dir maxDist).2 = none) :
    (ray_cast terrain pred origin dir maxDist).1 = maxDist :=
  ray_cast_aux_none terrain pred origin dir maxDist 400000 0 h


/-! ## Mount-scan fold lemmas -/


/-- A step of the mountable scan keeps a `some` accumulator `some`, and
never increases the recorded distance. -/
theorem mount_step_some_le (pp : Vec3) (maxR : ℤ) (pid : ℕ) (pe : ℕ) (pd : ℤ)
    (c : MountCand) :
    ∃ e1 d1, mount_step pp maxR pid (some (pe, pd)) c = some (e1, d1) ∧ d1 ≤ pd := by
  unfold mount_step
  by_cases h1 : c.id = pid
  · exact ⟨pe, pd, by simp [h1], le_refl _⟩
  · by_cases h2 : c.mount_state ≠ MountState.unmounted
    · exact ⟨pe, pd, by simp [h1, h2], le_refl _⟩
    · by_cases h3 : scaled_dist_sq pp c.pos > maxR
      · exact ⟨pe, pd, by simp [h1, h2, h3], le_refl _⟩
      · by_cases h4 : scaled_dist_sq pp c.pos < pd
        · exact ⟨c.id, scaled_dist_sq pp c.pos, by simp [h1, h2, h3, h4], le_of_lt h4⟩
        · exact ⟨pe, pd, by simp [h1, h2, h3, h4], le_refl _⟩

/-- After stepping over an in-range unmounted entity, the accumulator is
`some` and its distance is at most that entity's. -/
theorem mount_step_le_of_eligible (pp : Vec3) (maxR : ℤ) (pid : ℕ)
    (acc : Option (ℕ × ℤ)) (c : MountCand) (h1 : c.id ≠ pid)
    (h2 : c.mount_state = MountState.unmounted)
    (h3 : scaled_dist_sq pp c.pos ≤ maxR) :
    ∃ e1 d1, mount_step pp maxR pid acc c = some (e1, d1) ∧
      d1 ≤ scaled_dist_sq pp c.pos := by
  have h3' : ¬ scaled_dist_sq pp c.pos > maxR := not_lt.mpr h3
  rcases acc with _ | ⟨pe, pd⟩
  · exact ⟨c.id, scaled_dist_sq pp c.pos, by simp [mount_step, h1, h2, h3'], le_refl _⟩
  · by_cases h4 : scaled_dist_sq pp c.pos < pd
    · exact ⟨c.id, scaled_dist_sq pp c.pos, by simp [mount_step, h1, h2, h3', h4],
        le_refl _⟩
    · exact ⟨pe, pd, by simp [mount_step, h1, h2, h3', h4], not_lt.mp h4⟩

/-- Where a `some` step result comes from: the old accumulator, or the
entity just examined (then in range, unmounted, not the player). -/
theorem mount_step_provenance (pp : Vec3) (maxR : ℤ) (pid : ℕ)
    (acc : Option (ℕ × ℤ)) (c : MountCand) (e : ℕ) (d : ℤ)
    (h : mount_step pp maxR pid acc c = some (e, d)) :
    acc = some (e, d) ∨
      (c.id = e ∧ c.id ≠ pid ∧ c.mount_state = MountState.unmounted ∧
        scaled_dist_sq pp c.pos = d ∧ d ≤ maxR) := by
  by_cases h1 : c.id = pid
  · left; rw [← h]; simp [mount_step, h1]
  · by_cases h2 : c.mount_state ≠ MountState.unmounted
    · left; rw [← h]; simp [mount_step, h1, h2]
    · push_neg at h2
      by_cases h3 : scaled_dist_sq pp c.pos > maxR
      · left; rw [← h]; simp [mount_step, h1, h2, h3]
      · rcases acc with _ | ⟨pe, pd⟩
        · right
          simp [mount_step, h1, h2, h3] at h
          exact ⟨h.1, h1, h2, h.2, by rw [h.2] at h3; exact not_lt.mp h3⟩
        · by_cases h4 : scaled_dist_sq pp c.pos < pd
          · right
            simp [mount_step, h1, h2, h3, h4] at h
            exact ⟨h.1, h1, h2, h.2, by rw [h.2] at h3; exact not_lt.mp h3⟩
          · left
            rw [← h]; simp [mount_step, h1, h2, h3, h4]

/-- The distance recorded by the scan never increases along the fold. -/
theorem mount_fold_mono (pp : Vec3) (maxR : ℤ) (pid : ℕ) :
    ∀ (l : List MountCand) (pe : ℕ) (pd : ℤ) (e : ℕ) (d : ℤ),
      List.foldl (mount_step pp maxR pid) (some (pe, pd)) l = some (e, d) → d ≤ pd := by
  intro l
  induction l with
  | nil =>
    intro pe pd e d h
    simp only [List.foldl] at h
    cases h
    exact le_refl _
  | cons c t ih =>
    intro pe pd e d h
    simp only [List.foldl] at h
    obtain ⟨e1, d1, hstep, hle⟩ := mount_step_some_le pp maxR pid pe pd c
    rw [hstep] at h
    exact le_trans (ih e1 d1 e d h) hle

/-- The scan result is at most the scaled distance of every in-range
unmounted non-player entity of the list. -/
theorem mount_fold_min (pp : Vec3) (maxR : ℤ) (pid : ℕ) :
    ∀ (l : List MountCand) (acc : Option (ℕ × ℤ)) (e : ℕ) (d : ℤ),
      List.foldl (mount_step pp maxR pid) acc l = some (e, d) →
      ∀ c ∈ l, c.id ≠ pid → c.mount_state = MountState.unmounted →
        scaled_dist_sq pp c.pos ≤ maxR → d ≤ scaled_dist_sq pp c.pos := by
  intro l
  induction l with
  | nil => intro acc e d _ c hc; exact absurd hc (List.not_mem_nil c)
  | cons a t ih =>
    intro acc e d h c hc hcid hcms hcr
    simp only [List.foldl] at h
    rcases List.mem_cons.mp hc with rfl | hct
    · obtain ⟨e1, d1, hstep, hle⟩ :=
        mount_step_le_of_eligible pp maxR pid acc c hcid hcms hcr
      rw [hstep] at h
      exact le_trans (mount_fold_mono pp maxR pid t e1 d1 e d h) hle
    · exact ih (mount_step pp maxR pid acc a) e d h c hct hcid hcms hcr

/-- The scan result names an entity of the list that is in range,
unmounted and not the player, at exactly the recorded distance. -/
theorem mount_fold_provenance (pp : Vec3) (maxR : ℤ) (pid : ℕ) :
    ∀ (l : List MountCand) (acc : Option (ℕ × ℤ)) (e : ℕ) (d : ℤ),
      List.foldl (mount_step pp maxR pid) acc l = some (e, d) →
      acc = some (e, d) ∨
        ∃ c ∈ l, c.id = e ∧ c.id ≠ pid ∧ c.mount_state = MountState.unmounted ∧
          scaled_dist_sq pp c.pos = d ∧ d ≤ maxR := by
  intro l
  induction l with
  | nil => intro acc e d h; left; simpa using h
  | cons a t ih =>
    intro acc e d h
    simp only [List.foldl] at h
    rcases ih (mount_step pp maxR pid acc a) e d h with hacc | ⟨c, hct, hrest⟩
    · rcases mount_step_provenance pp maxR pid acc a e d hacc with hacc2 | hme
      · exact Or.inl hacc2
      · exact Or.inr ⟨a, List.mem_cons_self a t, hme⟩
    · exact Or.inr ⟨c, List.mem_cons_of_mem a hct, hrest⟩


/-! ## Pickup-scan fold lemmas -/


/-- The fold behind `min_by_key` only returns the accumulator or a list
element. -/
theorem min_by_key_fold_mem (key : ItemCand → ℤ) :
    ∀ (l : List ItemCand) (acc : Option ItemCand) (c : ItemCand),
      List.foldl
        (fun acc c =>
          match acc with
          | none => some c
          | some b => if key c < key b then some c else some b) acc l = some c →
      acc = some c ∨ c ∈ l := by
  intro l
  induction l with
  | nil => intro acc c h; left; simpa using h
  | cons a t ih =>
    intro acc c h
    simp only [List.foldl] at h
    rcases ih _ c h with hacc | hct
    · rcases acc with _ | b
      · simp only at hacc
        cases hacc
        exact Or.inr (List.mem_cons_self a t)
      · by_cases hk : key a < key b
        · simp only [hk, if_true] at hacc
          cases hacc
          exact Or.inr (List.mem_cons_self a t)
        · simp only [hk, if_false] at hacc
          exact Or.inl hacc
    · exact Or.inr (List.mem_cons_of_mem a hct)

/-- A `min_by_key` result is a member of the list. -/
theorem min_by_key_mem (key : ItemCand → ℤ) (l : List ItemCand) (c : ItemCand)
    (h : min_by_key key l = some c) : c ∈ l := by
  rcases min_by_key_fold_mem key l none c h with hacc | hm
  · exact absurd hacc (by simp)
  · exact hm


/-! ## Resolver provenance lemmas -/


/-- Unfolding of a successful target lookup: the first intersecting
candidate of the sorted list, surviving the final range check. -/
theorem target_entity_found (s : Snapshot) (camPos camDir : Vec3) (e : ℕ) (dps : ℚ)
    (h : target_entity s camPos camDir = some (e, dps)) :
    ∃ c, (List.insertionSort key_le
          (nearby_candidates s camPos (cast_dist s camPos camDir))).find?
        (seg_intersects camPos (seg_end s camPos camDir)) = some c ∧
      c.id = e ∧ dps = distSq c.pos (player_ref_pos s camPos) ∧
      sqrt_lt_rat (distSq c.pos (player_ref_pos s camPos))
        (MAX_TARGET_RANGE + c.radius) = true := by
  unfold target_entity at h
  rcases Option.bind_eq_some.mp h with ⟨c, hfind, hf⟩
  refine ⟨c, hfind, ?_⟩
  by_cases hrange : sqrt_lt_rat (distSq c.pos (player_ref_pos s camPos))
      (MAX_TARGET_RANGE + c.radius) = true
  · simp only [hrange, if_true] at hf
    cases hf
    exact ⟨rfl, rfl, hrange⟩
  · simp only [hrange, Bool.false_eq_true, if_false] at hf
    exact absurd hf (by simp)

/-- A member of `nearby_candidates` comes from a non-player entity. -/
theorem nearby_candidates_mem (s : Snapshot) (camPos : Vec3) (castDist : ℚ)
    (c : Cand) (h : c ∈ nearby_candidates s camPos castDist) :
    ∃ ent ∈ s.entities, ent.id ≠ s.player_entity ∧ c = mk_cand camPos ent := by
  unfold nearby_candidates at h
  have h1 := (List.mem_filter.mp h).1
  have h2 := (List.mem_filter.mp h1).1
  rcases List.mem_map.mp h2 with ⟨ent, hent, hc⟩
  have hne : ent.id ≠ s.player_entity := by
    have := (List.mem_filter.mp hent).2
    exact of_decide_eq_true this
  exact ⟨ent, (List.mem_filter.mp hent).1, hne, hc.symm⟩

/-- The three candidate filters, read off a membership. -/
theorem nearby_candidates_props (s : Snapshot) (camPos : Vec3) (castDist : ℚ)
    (c : Cand) (h : c ∈ nearby_candidates s camPos castDist) :
    c.dist_sqr ≤ castDist * castDist + 2 * castDist * c.radius + c.radius * c.radius ∧
      c.dist_sqr > c.radius * c.radius := by
  unfold nearby_candidates at h
  have h1 := (List.mem_filter.mp h).1
  have hin : c.dist_sqr > c.radius * c.radius := of_decide_eq_true (List.mem_filter.mp h).2
  have hco := of_decide_eq_true (List.mem_filter.mp h1).2
  exact ⟨hco, hin⟩



/-! ## Concrete worlds used by witnesses and counterexamples -/

/-- Terrain that is air everywhere. -/
def air_terrain : IVec3 → Block := fun _ => ⟨false, false⟩

/-- Terrain with a single solid (non-collectible) block at `(5,0,0)`. -/
def one_block_terrain : IVec3 → Block :=
  fun c => if c = ⟨5, 0, 0⟩ then ⟨true, false⟩ else ⟨false, false⟩

/-! ## The claims -/

/-- C7: for every camera pose and world snapshot, the player's own entity
id never appears as `target_entity` in the resolver's output. -/
theorem C7_no_self_target (s : Snapshot) (camPos camDir : Vec3) (e : ℕ) (dps : ℚ)
    (h : (under_cursor s camPos camDir).2.2 = some (e, dps)) :
    e ≠ s.player_entity := by
  rcases target_entity_found s camPos camDir e dps h with ⟨c, hfind, hid, _, _⟩
  have hmem : c ∈ List.insertionSort key_le
      (nearby_candidates s camPos (cast_dist s camPos camDir)) :=
    List.mem_of_find?_eq_some hfind
  have hmem2 : c ∈ nearby_candidates s camPos (cast_dist s camPos camDir) :=
    (List.mem_insertionSort key_le).mp hmem
  rcases nearby_candidates_mem s camPos _ c hmem2 with ⟨ent, _, hne, hc⟩
  have : c.id = ent.id := by rw [hc]; rfl
  rw [← hid, this]
  exact hne

/-- C7 witness: a concrete frame that does resolve a target entity, whose
id (7) differs from the player's (0). -/
theorem C7_witness :
    (under_cursor ⟨air_terrain, [⟨7, ⟨5, 0, -3⟩, none, 1⟩], 0, some ⟨0, 0, -2⟩, 25⟩
        ⟨0, 0, 0⟩ ⟨1, 0, 0⟩).2.2 = some (7, 25) ∧ (7 : ℕ) ≠ 0 :=
  ⟨by decide,
    C7_no_self_target ⟨air_terrain, [⟨7, ⟨5, 0, -3⟩, none, 1⟩], 0, some ⟨0, 0, -2⟩, 25⟩
      ⟨0, 0, 0⟩ ⟨1, 0, 0⟩ 7 25 (by decide)⟩

/-- C9: the resolver is a pure function of the snapshot and camera pose;
resolving twice with unchanged inputs yields identical output triples. -/
theorem C9_deterministic (s : Snapshot) (camPos camDir : Vec3) :
    under_cursor s camPos camDir = under_cursor s camPos camDir := rfl

/-- C6: from a stored level of `false`, the level sequence
`[false, true, true, false, true]` yields exactly the transitions
`[rising, falling, rising]`, and a repeated level never fires an event. -/
theorem C6_edge_tracker :
    edge_events false [false, true, true, false, true] =
        [Edge.rising, Edge.falling, Edge.rising] ∧
      ∀ prev : Bool, (edge_step prev prev).1 = none := by
  constructor
  · decide
  · decide

/-- C4 counterexample: with build permission, a pressed level and no
`select_pos`, the Primary arm does nothing — in particular it does not
forward the held state as the attack signal, as the claim states. -/
theorem C4_counterexample :
    handle_primary true none true = PrimaryAction.noop ∧
      handle_primary true none true ≠ PrimaryAction.setAttack true := by
  constructor
  · decide
  · decide

/-- C4 amended: with build permission and a pressed level the arm removes
the block at `select_pos` when one exists and otherwise does nothing;
only with no build permission or a released level is the raw level
forwarded as the continuous attack signal. -/
theorem C4_primary_cases :
    (∀ (sp : IVec3) (state canBuild : Bool), state = true → canBuild = true →
        handle_primary canBuild (some sp) state = PrimaryAction.removeBlock sp) ∧
      (∀ canBuild : Bool, handle_primary canBuild none true =
        if canBuild then PrimaryAction.noop else PrimaryAction.setAttack true) ∧
      (∀ (canBuild : Bool) (selectPos : Option IVec3),
        handle_primary canBuild selectPos false = PrimaryAction.setAttack false) ∧
      (∀ (selectPos : Option IVec3) (state : Bool),
        handle_primary false selectPos state = PrimaryAction.setAttack state) := by
  refine ⟨?_, ?_, ?_, ?_⟩
  · intro sp state canBuild h1 h2
    subst h1; subst h2; rfl
  · intro canBuild
    cases canBuild <;> rfl
  · intro canBuild selectPos
    rfl
  · intro selectPos state
    cases state <;> rfl

/-- C4 witness: the amended theorem applied at a concrete input. -/
theorem C4_witness :
    handle_primary true (some ⟨1, 2, 3⟩) true = PrimaryAction.removeBlock ⟨1, 2, 3⟩ :=
  C4_primary_cases.1 ⟨1, 2, 3⟩ true true rfl rfl

/-- C10: on an Interact rising edge with a player position, a resolved
`target_entity` is picked up with no item or range check at all; the
item-and-range filter constrains only the fallback scan used when no
target entity is present. -/
theorem C10_interact_pickup :
    (∀ (pp : Vec3) (maxP : ℚ) (ents : List ItemCand) (e : ℕ),
        interact_pickup (some e) (some pp) maxP ents = some e) ∧
      (∀ (pp : Vec3) (maxP : ℚ) (ents : List ItemCand) (e : ℕ),
        interact_pickup none (some pp) maxP ents = some e →
        ∃ c ∈ ents, c.id = e ∧ c.has_item = true ∧ distSq c.pos pp < maxP) := by
  constructor
  · intro pp maxP ents e
    rfl
  · intro pp maxP ents e h
    replace h : Option.map (fun c => c.id)
        (min_by_key (fun c => scaled_dist_sq c.pos pp)
          ((ents.filter (fun c => c.has_item)).filter
            (fun c => distSq c.pos pp < maxP))) = some e := h
    rcases hmin : min_by_key (fun c => scaled_dist_sq c.pos pp)
        ((ents.filter (fun c => c.has_item)).filter
          (fun c => distSq c.pos pp < maxP)) with _ | c
    · rw [hmin] at h
      exact absurd h (by simp)
    · rw [hmin] at h
      have hce : c.id = e := by simpa using h
      have hc : c ∈ (ents.filter (fun c => c.has_item)).filter
          (fun c => distSq c.pos pp < maxP) := min_by_key_mem _ _ c hmin
      have h1 := (List.mem_filter.mp hc).1
      have hrange := of_decide_eq_true (List.mem_filter.mp hc).2
      have hitem := (List.mem_filter.mp h1).2
      exact ⟨c, (List.mem_filter.mp h1).1, hce, hitem, hrange⟩

/-- C10 witness: a target entity that appears in no entity list (so
carries no item and is in no range) is still the pickup choice. -/
theorem C10_witness :
    interact_pickup (some 42) (some ⟨0, 0, 0⟩) 64 [] = some 42 :=
  C10_interact_pickup.1 ⟨0, 0, 0⟩ 64 [] 42



/-- C5 counterexample: the claim's scenario — unmounted entities at
squared distances 100 and 400, range constant 500 — mounts nothing,
because the range check compares the scaled integers 100000 and 400000
against the constant, not the raw squared distances. -/
theorem C5_counterexample :
    handle_mount false (some ⟨0, 0, 0⟩) 500 0
        [⟨1, ⟨10, 0, 0⟩, MountState.unmounted⟩, ⟨2, ⟨20, 0, 0⟩, MountState.unmounted⟩] =
      MountAction.noop ∧
      MountAction.noop ≠ MountAction.mount 1 := by
  constructor
  · decide
  · decide

/-- C5 amended: on a Mount press while not mounted, the arm mounts the
entity, excluding the player, that is unmounted and whose squared
distance scaled by 1000 and truncated to an integer is within
`MAX_MOUNT_RANGE_SQR`, with that same scaled integer minimal; with two
unmounted entities at squared distances 1/10 and 2/5 (scaled: 100 and
400, both within 500) the one at 1/10 is mounted. -/
theorem C5_mount_scaled_range :
    (∀ (pp : Vec3) (maxR : ℤ) (pid : ℕ) (ents : List MountCand) (e : ℕ),
        handle_mount false (some pp) maxR pid ents = MountAction.mount e →
        ∃ c ∈ ents, c.id = e ∧ c.id ≠ pid ∧
          c.mount_state = MountState.unmounted ∧
          scaled_dist_sq pp c.pos ≤ maxR ∧
          ∀ c2 ∈ ents, c2.id ≠ pid → c2.mount_state = MountState.unmounted →
            scaled_dist_sq pp c2.pos ≤ maxR →
            scaled_dist_sq pp c.pos ≤ scaled_dist_sq pp c2.pos) ∧
      handle_mount false (some ⟨0, 0, 0⟩) 500 0
          [⟨1, ⟨3/10, 1/10, 0⟩, MountState.unmounted⟩,
            ⟨2, ⟨3/5, 1/5, 0⟩, MountState.unmounted⟩] =
        MountAction.mount 1 := by
  constructor
  · intro pp maxR pid ents e h
    replace h : (match closest_mountable pp maxR pid ents with
        | some (e, _) => MountAction.mount e
        | none => MountAction.noop) = MountAction.mount e := h
    rcases hc : closest_mountable pp maxR pid ents with _ | ⟨e1, d⟩
    · rw [hc] at h
      exact absurd h (by simp)
    · rw [hc] at h
      simp only at h
      have he : e1 = e := by
        cases h
        rfl
      subst he
      rcases mount_fold_provenance pp maxR pid ents none e1 d hc with hnone | hmem
      · exact absurd hnone (by simp)
      · rcases hmem with ⟨c, hcm, hcid, hcpid, hcms, hcd, hdr⟩
        refine ⟨c, hcm, hcid, hcpid, hcms, by rw [hcd]; exact hdr, ?_⟩
        intro c2 hc2 h1 h2 h3
        rw [hcd]
        exact mount_fold_min pp maxR pid ents none e1 d hc c2 hc2 h1 h2 h3
  · decide

/-- C5 witness: the amended theorem applied at the amended scenario. -/
theorem C5_witness :
    ∃ c ∈ [⟨1, ⟨3/10, 1/10, 0⟩, MountState.unmounted⟩,
        (⟨2, ⟨3/5, 1/5, 0⟩, MountState.unmounted⟩ : MountCand)], c.id = 1 ∧ c.id ≠ 0 ∧
      c.mount_state = MountState.unmounted ∧
      scaled_dist_sq ⟨0, 0, 0⟩ c.pos ≤ 500 ∧
      ∀ c2 ∈ [⟨1, ⟨3/10, 1/10, 0⟩, MountState.unmounted⟩,
          (⟨2, ⟨3/5, 1/5, 0⟩, MountState.unmounted⟩ : MountCand)], c2.id ≠ 0 →
        c2.mount_state = MountState.unmounted →
        scaled_dist_sq ⟨0, 0, 0⟩ c2.pos ≤ 500 →
        scaled_dist_sq ⟨0, 0, 0⟩ c.pos ≤ scaled_dist_sq ⟨0, 0, 0⟩ c2.pos :=
  C5_mount_scaled_range.1 ⟨0, 0, 0⟩ 500 0
    [⟨1, ⟨3/10, 1/10, 0⟩, MountState.unmounted⟩,
      ⟨2, ⟨3/5, 1/5, 0⟩, MountState.unmounted⟩] 1 (by decide)

/-- C1: the frame's highlighted `select_pos` (the resolver's select
position surviving the tick's collectible-or-build filter) exists only if
the camera ray hit a voxel, the hit point lies within
`MAX_PICKUP_RANGE_SQR` (squared distance) of the player position raised
2 units, and the block at `select_pos` is collectible or the player can
build. -/
theorem C1_select_pos_sound (s : Snapshot) (canBuild : Bool) (camPos camDir p : Vec3)
    (sp : IVec3) (hp : s.player_pos = some p)
    (h : scene_select_pos s.terrain canBuild (under_cursor s camPos camDir).2.1 =
      some sp) :
    ((cam_ray s camPos camDir).2.isSome = true ∧
        distSq (vadd p ⟨0, 0, 2⟩)
            (vadd camPos (vscale (cam_ray s camPos camDir).1 camDir)) ≤
          s.max_pickup_range_sqr) ∧
      ((s.terrain sp).is_collectible || canBuild) = true := by
  have href : player_ref_pos s camPos = vadd p ⟨0, 0, 2⟩ := by
    simp [player_ref_pos, hp]
  have hb : (under_cursor s camPos camDir).2.1 = (build_select s camPos camDir).2 := rfl
  rw [hb] at h
  simp only [build_select] at h
  by_cases hcond : (cam_ray s camPos camDir).2.isSome = true ∧
      distSq (player_ref_pos s camPos)
          (vadd camPos (vscale (cam_ray s camPos camDir).1 camDir)) ≤
        s.max_pickup_range_sqr
  · rw [if_pos hcond] at h
    simp only [scene_select_pos] at h
    by_cases hcol : ((s.terrain (vfloor (vadd camPos
        (vscale ((cam_ray s camPos camDir).1 + 1 / 100) camDir)))).is_collectible ||
          canBuild) = true
    · rw [if_pos hcol] at h
      have hsp : vfloor (vadd camPos
          (vscale ((cam_ray s camPos camDir).1 + 1 / 100) camDir)) = sp := by
        cases h
        rfl
      rw [← href]
      exact ⟨hcond, by rw [← hsp]; exact hcol⟩
    · rw [if_neg hcol] at h
      exact absurd h (by simp)
  · rw [if_neg hcond] at h
    simp only [scene_select_pos] at h
    exact absurd h (by simp)

/-- C1 witness: a frame (solid block at `(5,0,0)`, camera at the origin
looking along x, build permission) whose filtered select position is
present, at which the theorem's conclusion evaluates. -/
theorem C1_witness :
    ((cam_ray ⟨one_block_terrain, [], 0, some ⟨0, 0, 0⟩, 64⟩ ⟨0, 0, 0⟩ ⟨1, 0, 0⟩).2.isSome =
          true ∧
        distSq (vadd ⟨0, 0, 0⟩ ⟨0, 0, 2⟩)
            (vadd ⟨0, 0, 0⟩ (vscale
              (cam_ray ⟨one_block_terrain, [], 0, some ⟨0, 0, 0⟩, 64⟩ ⟨0, 0, 0⟩
                  ⟨1, 0, 0⟩).1 ⟨1, 0, 0⟩)) ≤ 64) ∧
      (((⟨one_block_terrain, [], 0, some ⟨0, 0, 0⟩, 64⟩ : Snapshot).terrain
          ⟨5, 0, 0⟩).is_collectible || true) = true :=
  C1_select_pos_sound ⟨one_block_terrain, [], 0, some ⟨0, 0, 0⟩, 64⟩ true ⟨0, 0, 0⟩
    ⟨1, 0, 0⟩ ⟨0, 0, 0⟩ ⟨5, 0, 0⟩ rfl (by decide)



/-- C8 counterexample: with the camera and player at the origin facing x,
a solid voxel at `(5,0,0)` and pickup range exactly 5 (squared threshold
25), nothing is selected: the range check measures from the player origin
raised 2 units, and that squared distance is 29 > 25. -/
theorem C8_counterexample :
    under_cursor ⟨one_block_terrain, [], 0, some ⟨0, 0, 0⟩, 25⟩ ⟨0, 0, 0⟩ ⟨1, 0, 0⟩ =
      (none, none, none) := by decide

/-- C8 amended: same scenario with any squared pickup threshold of at
least 29 (range at least √29, the distance from the raised player origin
to the hit point): `select_pos = (5,0,0)` (floor of the hit point plus
0.01 along the ray) and `build_pos = (4,0,0)` (floor of the hit point
minus 0.01 along the ray). -/
theorem C8_scenario (q : ℚ) (h : 29 ≤ q) :
    under_cursor ⟨one_block_terrain, [], 0, some ⟨0, 0, 0⟩, q⟩ ⟨0, 0, 0⟩ ⟨1, 0, 0⟩ =
      (some ⟨4, 0, 0⟩, some ⟨5, 0, 0⟩, none) := by
  have hray : cam_ray ⟨one_block_terrain, [], 0, some ⟨0, 0, 0⟩, q⟩ ⟨0, 0, 0⟩ ⟨1, 0, 0⟩ =
      (5, some ⟨true, false⟩) := by
    show ray_cast one_block_terrain until_pred ⟨0, 0, 0⟩ ⟨1, 0, 0⟩ 100 =
      (5, some ⟨true, false⟩)
    decide
  have hd : distSq (player_ref_pos ⟨one_block_terrain, [], 0, some ⟨0, 0, 0⟩, q⟩ ⟨0, 0, 0⟩)
      (vadd ⟨0, 0, 0⟩ (vscale (5 : ℚ) ⟨1, 0, 0⟩)) = 29 := by
    show distSq (vadd ⟨0, 0, 0⟩ ⟨0, 0, 2⟩) (vadd ⟨0, 0, 0⟩ (vscale (5 : ℚ) ⟨1, 0, 0⟩)) = 29
    decide
  have hbs : build_select ⟨one_block_terrain, [], 0, some ⟨0, 0, 0⟩, q⟩ ⟨0, 0, 0⟩ ⟨1, 0, 0⟩ =
      (some ⟨4, 0, 0⟩, some ⟨5, 0, 0⟩) := by
    simp only [build_select, hray, hd]
    rw [if_pos ⟨rfl, h⟩]
    decide
  have hte : target_entity ⟨one_block_terrain, [], 0, some ⟨0, 0, 0⟩, q⟩ ⟨0, 0, 0⟩ ⟨1, 0, 0⟩ =
      none := rfl
  show ((build_select _ _ _).1, (build_select _ _ _).2, target_entity _ _ _) = _
  rw [hbs, hte]

/-- C8 witness: the amended scenario at threshold 29 itself. -/
theorem C8_witness :
    (29 : ℚ) ≤ 29 ∧
      under_cursor ⟨one_block_terrain, [], 0, some ⟨0, 0, 0⟩, 29⟩ ⟨0, 0, 0⟩ ⟨1, 0, 0⟩ =
        (some ⟨4, 0, 0⟩, some ⟨5, 0, 0⟩, none) :=
  ⟨le_refl 29, C8_scenario 29 (le_refl 29)⟩



/-- C2 counterexample: the claim's scenario as stated. With aim points
raised by the radius (feet at `(10,0,0)` with radius 1 and `(3,0,0)` with
radius 5), both spheres are exactly tangent to the +x ray from the
origin, the strict intersection test fails for both, and no entity is
targeted — not B. -/
theorem C2_counterexample :
    (under_cursor ⟨air_terrain,
        [⟨1, ⟨10, 0, 0⟩, none, 1/3⟩, ⟨2, ⟨3, 0, 0⟩, none, 5/3⟩], 0,
          some ⟨0, 0, -2⟩, 25⟩ ⟨0, 0, 0⟩ ⟨1, 0, 0⟩).2.2 = none := by decide

/-- C2 amended: among candidates whose spheres meet the camera segment
(excluding spheres containing the camera), the resolver returns the one
whose surface — `sqrt(dist_sqr) - radius` — is nearest; in the concrete
scenario, entity A of radius 1 with sphere centre `(6,0,1/2)` and entity
B of radius 4 with centre `(8,0,0)` (A nearer by centre, B nearer by
surface) both meet the +x ray from the origin, and B (id 2) is returned. -/
theorem C2_surface_nearest :
    (∀ (s : Snapshot) (camPos camDir : Vec3) (e : ℕ) (dps : ℚ),
        (under_cursor s camPos camDir).2.2 = some (e, dps) →
        ∃ c ∈ nearby_candidates s camPos (cast_dist s camPos camDir), c.id = e ∧
          seg_intersects camPos (seg_end s camPos camDir) c = true ∧
          ∀ c2 ∈ nearby_candidates s camPos (cast_dist s camPos camDir),
            seg_intersects camPos (seg_end s camPos camDir) c2 = true →
            Real.sqrt (c.dist_sqr : ℝ) - (c.radius : ℝ) ≤
              Real.sqrt (c2.dist_sqr : ℝ) - (c2.radius : ℝ)) ∧
      (under_cursor ⟨air_terrain,
          [⟨1, ⟨6, 0, -1/2⟩, none, 1/3⟩, ⟨2, ⟨8, 0, -4⟩, none, 4/3⟩], 0,
            some ⟨0, 0, -2⟩, 25⟩ ⟨0, 0, 0⟩ ⟨1, 0, 0⟩).2.2 = some (2, 64) := by
  constructor
  · intro s camPos camDir e dps h
    rcases target_entity_found s camPos camDir e dps h with ⟨c, hfind, hid, _, _⟩
    have hpair : List.Pairwise key_le (List.insertionSort key_le
        (nearby_candidates s camPos (cast_dist s camPos camDir))) :=
      List.sorted_insertionSort key_le _
    have hmem : c ∈ nearby_candidates s camPos (cast_dist s camPos camDir) :=
      (List.mem_insertionSort key_le).mp (List.mem_of_find?_eq_some hfind)
    have hpc : seg_intersects camPos (seg_end s camPos camDir) c = true :=
      List.find?_some hfind
    refine ⟨c, hmem, hid, hpc, ?_⟩
    intro c2 hc2 hpc2
    have hmem2 : c2 ∈ List.insertionSort key_le
        (nearby_candidates s camPos (cast_dist s camPos camDir)) :=
      (List.mem_insertionSort key_le).mpr hc2
    have hkey : key_le c c2 := find_first_min hpair hfind c2 hmem2 hpc2
    exact (sqrt_sub_le_iff c.dist_sqr c.radius c2.dist_sqr c2.radius).mp hkey
  · decide

/-- C2 witness: the general half of the amended theorem applied at the
amended scenario's frame. -/
theorem C2_witness :
    ∃ c ∈ nearby_candidates ⟨air_terrain,
        [⟨1, ⟨6, 0, -1/2⟩, none, 1/3⟩, ⟨2, ⟨8, 0, -4⟩, none, 4/3⟩], 0,
          some ⟨0, 0, -2⟩, 25⟩ ⟨0, 0, 0⟩
        (cast_dist ⟨air_terrain,
          [⟨1, ⟨6, 0, -1/2⟩, none, 1/3⟩, ⟨2, ⟨8, 0, -4⟩, none, 4/3⟩], 0,
            some ⟨0, 0, -2⟩, 25⟩ ⟨0, 0, 0⟩ ⟨1, 0, 0⟩), c.id = 2 ∧
      seg_intersects ⟨0, 0, 0⟩ (seg_end ⟨air_terrain,
          [⟨1, ⟨6, 0, -1/2⟩, none, 1/3⟩, ⟨2, ⟨8, 0, -4⟩, none, 4/3⟩], 0,
            some ⟨0, 0, -2⟩, 25⟩ ⟨0, 0, 0⟩ ⟨1, 0, 0⟩) c = true ∧
      ∀ c2 ∈ nearby_candidates ⟨air_terrain,
          [⟨1, ⟨6, 0, -1/2⟩, none, 1/3⟩, ⟨2, ⟨8, 0, -4⟩, none, 4/3⟩], 0,
            some ⟨0, 0, -2⟩, 25⟩ ⟨0, 0, 0⟩
          (cast_dist ⟨air_terrain,
            [⟨1, ⟨6, 0, -1/2⟩, none, 1/3⟩, ⟨2, ⟨8, 0, -4⟩, none, 4/3⟩], 0,
              some ⟨0, 0, -2⟩, 25⟩ ⟨0, 0, 0⟩ ⟨1, 0, 0⟩),
        seg_intersects ⟨0, 0, 0⟩ (seg_end ⟨air_terrain,
            [⟨1, ⟨6, 0, -1/2⟩, none, 1/3⟩, ⟨2, ⟨8, 0, -4⟩, none, 4/3⟩], 0,
              some ⟨0, 0, -2⟩, 25⟩ ⟨0, 0, 0⟩ ⟨1, 0, 0⟩) c2 = true →
        Real.sqrt (c.dist_sqr : ℝ) - (c.radius : ℝ) ≤
          Real.sqrt (c2.dist_sqr : ℝ) - (c2.radius : ℝ) :=
  C2_surface_nearest.1 ⟨air_terrain,
    [⟨1, ⟨6, 0, -1/2⟩, none, 1/3⟩, ⟨2, ⟨8, 0, -4⟩, none, 4/3⟩], 0,
      some ⟨0, 0, -2⟩, 25⟩ ⟨0, 0, 0⟩ ⟨1, 0, 0⟩ 2 64 (by decide)

/-- C3 counterexample: the terrain ray records no hit, yet an entity
whose sphere (radius 3, centre `(150,0,0)`) sits on the camera ray well
inside `MAX_TARGET_RANGE = 300` and within range of the player is not
targeted: the intersection segment ends at the ray's maximum travel
distance of 100 units, not at 300. -/
theorem C3_counterexample :
    under_cursor ⟨air_terrain, [⟨7, ⟨150, 0, -3⟩, none, 1⟩], 0,
        some ⟨0, 0, -2⟩, 25⟩ ⟨0, 0, 0⟩ ⟨1, 0, 0⟩ = (none, none, none) := by decide

/-- C3 amended: when the ray records no hit, `cast_dist` is
`MAX_TARGET_RANGE` only for the coarse filter; the returned distance of
the miss is the ray cap 100, the intersection segment ends there, and any
returned target's sphere meets that 100-unit segment. An entity at
distance 50 on the ray is targeted. -/
theorem C3_no_hit_segment_capped :
    (∀ (s : Snapshot) (camPos camDir : Vec3) (e : ℕ) (dps : ℚ),
        (cam_ray s camPos camDir).2 = none →
        (under_cursor s camPos camDir).2.2 = some (e, dps) →
        (cam_ray s camPos camDir).1 = 100 ∧
          ∃ c ∈ nearby_candidates s camPos MAX_TARGET_RANGE, c.id = e ∧
            seg_intersects camPos (vadd camPos (vscale 100 camDir)) c = true) ∧
      (under_cursor ⟨air_terrain, [⟨7, ⟨50, 0, -3⟩, none, 1⟩], 0,
          some ⟨0, 0, -2⟩, 25⟩ ⟨0, 0, 0⟩ ⟨1, 0, 0⟩).2.2 = some (7, 2500) := by
  constructor
  · intro s camPos camDir e dps hmiss h
    have hd100 : (cam_ray s camPos camDir).1 = 100 :=
      ray_cast_none s.terrain until_pred camPos camDir 100 hmiss
    have hcast : cast_dist s camPos camDir = MAX_TARGET_RANGE := by
      simp [cast_dist, hmiss]
    have hseg : seg_end s camPos camDir = vadd camPos (vscale 100 camDir) := by
      rw [seg_end, hd100]
    rcases target_entity_found s camPos camDir e dps h with ⟨c, hfind, hid, _, _⟩
    have hmem : c ∈ nearby_candidates s camPos (cast_dist s camPos camDir) :=
      (List.mem_insertionSort key_le).mp (List.mem_of_find?_eq_some hfind)
    have hpc : seg_intersects camPos (seg_end s camPos camDir) c = true :=
      List.find?_some hfind
    rw [hcast] at hmem
    rw [hseg] at hpc
    exact ⟨hd100, c, hmem, hid, hpc⟩
  · decide

/-- C3 witness: the general half applied at the 50-unit frame. -/
theorem C3_witness :
    (cam_ray ⟨air_terrain, [⟨7, ⟨50, 0, -3⟩, none, 1⟩], 0, some ⟨0, 0, -2⟩, 25⟩
        ⟨0, 0, 0⟩ ⟨1, 0, 0⟩).1 = 100 ∧
      ∃ c ∈ nearby_candidates ⟨air_terrain, [⟨7, ⟨50, 0, -3⟩, none, 1⟩], 0,
          some ⟨0, 0, -2⟩, 25⟩ ⟨0, 0, 0⟩ MAX_TARGET_RANGE, c.id = 7 ∧
        seg_intersects ⟨0, 0, 0⟩ (vadd ⟨0, 0, 0⟩ (vscale 100 ⟨1, 0, 0⟩)) c = true :=
  C3_no_hit_segment_capped.1 ⟨air_terrain, [⟨7, ⟨50, 0, -3⟩, none, 1⟩], 0,
    some ⟨0, 0, -2⟩, 25⟩ ⟨0, 0, 0⟩ ⟨1, 0, 0⟩ 7 2500 (by decide) (by decide)

end Session
